import Mathlib

/-!
Verification of the dotfile-manager core (config resolution, dotfile list
loading, path canonicalization and symlink installation) against a shallow
embedding of the Rust sources (`src/util.rs`, `src/dotfile.rs`,
`src/config.rs`, `src/nix.rs`).

Paths are modelled as an absoluteness flag plus a list of components,
mirroring `std::path::PathBuf` on Unix.  The filesystem is an abstract
oracle (`FS`): canonicalization is a partial function, existence and
file/directory tests are boolean predicates.  Filesystem effects of the
installer are recorded as an explicit trace of operations (`FsOp`), so
that `performs no modification` is the statement that the trace holds no
mutating operation.
-/

namespace DFM

/-- A filesystem path: `std::path::PathBuf`, modelled as an absoluteness
flag and the list of (non-root) components. -/
structure Path where
  absolute : Bool
  components : List String
deriving DecidableEq

/-- `base.join(p)` from `std::path::Path::join`: if `p` is absolute it
replaces the whole path, otherwise its components are appended. -/
def Path.join (base p : Path) : Path :=
  if p.absolute then p else ⟨base.absolute, base.components ++ p.components⟩

/-- Split a list of characters around its last dot: returns the parts
before and after the last `.` when one is present. -/
def splitLastDot : List Char → Option (List Char × List Char)
  | [] => none
  | c :: cs =>
    match splitLastDot cs with
    | some (b, a) => some (c :: b, a)
    | none => if c = '.' then some ([], cs) else none

/-- The file stem of a single path component, following the Rust rules
of `Path::file_stem`: the portion before the last `.`, except that a
leading dot does not begin an extension. -/
def fileStemOf (name : String) : List Char :=
  match name.data with
  | [] => []
  | c :: rest =>
    match splitLastDot rest with
    | some (b, _) => c :: b
    | none => c :: rest

/-- Whether a path component has no extension in the sense of
`Path::extension` (no dot after the first character). -/
def extensionLess (name : String) : Bool :=
  match name.data with
  | [] => true
  | _ :: rest => (splitLastDot rest).isNone

/-- `PathBuf::set_extension` on a single component: replace the current
extension (if any) by `ext`, keeping the file stem. -/
def setExtComponent (name ext : String) : String :=
  String.mk (fileStemOf name ++ (if ext.data.isEmpty then [] else '.' :: ext.data))

/-- `PathBuf::set_extension`: rewrite the last component of the path;
a path with no components is left unchanged. -/
def Path.set_extension (p : Path) (ext : String) : Path :=
  match p.components.getLast? with
  | none => p
  | some last => ⟨p.absolute, p.components.dropLast ++ [setExtComponent last ext]⟩

/-- `std::io::ErrorKind`, restricted to the kinds the program uses. -/
inductive IoErrorKind where
  | notFound
  | alreadyExists
  | other
deriving DecidableEq

/-- `std::io::Error`: a kind together with a message. -/
structure IoError where
  kind : IoErrorKind
  msg : String
deriving DecidableEq

/-- The filesystem oracle: canonicalization (`Path::canonicalize`) as a
partial function, plus the boolean queries and read operations used by
the program. -/
structure FS where
  canonical : Path → Option Path
  pathExists : Path → Bool
  isFile : Path → Bool
  isDir : Path → Bool
  openFile : Path → Except IoError Unit
  contents : Path → String

/-- Well-formedness of the filesystem oracle: facts guaranteed by a real
filesystem that the proofs rely on. -/
structure FS.Wf (fs : FS) : Prop where
  canonical_absolute : ∀ p q, fs.canonical p = some q → q.absolute = true
  canonical_idem : ∀ p q, fs.canonical p = some q → fs.canonical q = some q
  exists_canonical : ∀ p, fs.pathExists p = true → (fs.canonical p).isSome = true
  not_file_and_dir : ∀ p, ¬(fs.isFile p = true ∧ fs.isDir p = true)

/-- `util::make_abs`: join `p` onto `base`, then canonicalize, falling
back to the joined path when canonicalization fails.  Total by
construction: it always returns a path, never an error. -/
def make_abs (fs : FS) (base p : Path) : Path :=
  (fs.canonical (base.join p)).getD (base.join p)

/-- `util::home_dir`: the platform home directory, or a `NotFound` error
when the platform reports none. -/
def home_dir (platformHome : Option Path) : Except IoError Path :=
  match platformHome with
  | some h => Except.ok h
  | none => Except.error ⟨IoErrorKind.notFound, "Home directory not found"⟩

/-- `dotfile::Dotfile`: a declared entry, repo-relative path plus an
optional installed path. -/
structure Dotfile where
  repo : Path
  installed : Option Path
deriving DecidableEq

/-- `From<PathBuf> for Dotfile`: a bare path becomes a `Dotfile` with no
installed override. -/
def Dotfile.ofPath (p : Path) : Dotfile :=
  ⟨p, none⟩

/-- `Dotfile::installed()`: the installed path, defaulting to `repo`
when unspecified. -/
def Dotfile.installedPath (d : Dotfile) : Path :=
  d.installed.getD d.repo

/-- `dotfile::SerdeDotfile`: the untagged parse shape, either a bare
path or a full `Dotfile` object. -/
inductive SerdeDotfile where
  | path (p : Path)
  | advanced (d : Dotfile)
deriving DecidableEq

/-- `From<SerdeDotfile> for Dotfile`: a bare path goes through
`Dotfile::from(PathBuf)`, an advanced entry is already a `Dotfile`. -/
def SerdeDotfile.toDotfile : SerdeDotfile → Dotfile
  | SerdeDotfile.path p => Dotfile.ofPath p
  | SerdeDotfile.advanced d => d

/-- `config::SerdeDotfileList`: the wrapper shape of a dotfile list
document, an ignored optional `$schema` plus the entries. -/
structure SerdeDotfileList where
  schema : Option String
  dotfiles : List SerdeDotfile
deriving DecidableEq

/-- `From<Vec<SerdeDotfile>> for SerdeDotfileList`: wrap a bare vector
with no schema. -/
def SerdeDotfileList.ofVec (v : List SerdeDotfile) : SerdeDotfileList :=
  ⟨none, v⟩

/-- `SerdeDotfileList::dotfiles()`: convert every entry in order. -/
def SerdeDotfileList.dotfilesFn (l : SerdeDotfileList) : List Dotfile :=
  l.dotfiles.map SerdeDotfile.toDotfile

/-- `config::Config`: repository directory and list basename. -/
structure Config where
  dotfile_repo : Path
  dotfiles_basename : Path
deriving DecidableEq

/-- `config::SerdeConfig`: the parse shape of the config file, both keys
optional. -/
structure SerdeConfig where
  dotfile_repo : Option Path
  dotfiles_basename : Option Path
deriving DecidableEq

/-- `config::ConfigReadError`. -/
inductive ConfigReadError where
  | NoHome
  | NotFound (p : Path)
  | File (e : IoError)
  | SerdeTOML (e : String)
deriving DecidableEq

/-- `DEFAULT_DOTFILE_REPO_NAME`, the path `.dotfiles`. -/
def DEFAULT_DOTFILE_REPO_NAME : Path :=
  ⟨false, [".dotfiles"]⟩

/-- `TryFrom<SerdeConfig> for Config`: fill in `<home>/.dotfiles` when
`dotfile_repo` is missing (failing with `NoHome` when the platform has
no home directory) and `dotfiles` when `dotfiles_basename` is missing. -/
def Config.tryFromSerde (platformHome : Option Path) (cfg : SerdeConfig) :
    Except ConfigReadError Config :=
  match cfg.dotfile_repo with
  | some r =>
    Except.ok ⟨r, cfg.dotfiles_basename.getD ⟨false, ["dotfiles"]⟩⟩
  | none =>
    match platformHome with
    | none => Except.error ConfigReadError.NoHome
    | some h =>
      Except.ok ⟨h.join DEFAULT_DOTFILE_REPO_NAME,
        cfg.dotfiles_basename.getD ⟨false, ["dotfiles"]⟩⟩

/-- `Config::try_default`: convert the all-defaults `SerdeConfig`. -/
def Config.try_default (platformHome : Option Path) :
    Except ConfigReadError Config :=
  Config.tryFromSerde platformHome ⟨none, none⟩

/-- `config::DotfileListFiletype`. -/
inductive DotfileListFiletype where
  | Nix
  | JSON
  | TOML
  | YAML
deriving DecidableEq

/-- `DotfileListFiletype::extensions`. -/
def DotfileListFiletype.extensions : DotfileListFiletype → List String
  | DotfileListFiletype.Nix => ["nix"]
  | DotfileListFiletype.JSON => ["json"]
  | DotfileListFiletype.TOML => ["toml"]
  | DotfileListFiletype.YAML => ["yaml", "yml"]

/-- `nix::NixEvalError`; `serde_json::Error` is modelled as its message
string. -/
inductive NixEvalError where
  | NoNix (e : IoError)
  | CommandFailed (e : IoError)
  | EvalFailed (stderr : String)
  | SerdeJSON (e : String)
deriving DecidableEq

/-- `config::DotfilesReadError`; the serde error payloads are modelled
as message strings. -/
inductive DotfilesReadError where
  | NoneFound
  | File (e : IoError)
  | SerdeJSON (e : String)
  | SerdeYAML (e : String)
  | SerdeTOML (e : String)
  | NixEval (e : NixEvalError)
deriving DecidableEq

/-- `Config::dotfiles_basename_extension`: the basename with its
extension set. -/
def Config.dotfiles_basename_extension (cfg : Config) (ext : String) : Path :=
  cfg.dotfiles_basename.set_extension ext

/-- `Config::dotfiles_filename`: a candidate list file path, the
extended basename resolved against the repository directory. -/
def Config.dotfiles_filename (cfg : Config) (ext : String) : Path :=
  cfg.dotfile_repo.join (cfg.dotfiles_basename_extension ext)

/-- `Config::dotfiles_paths`: all candidate list files, in the fixed
filetype order Nix, JSON, TOML, YAML and per-filetype extension order. -/
def Config.dotfiles_paths (cfg : Config) : List (Path × DotfileListFiletype) :=
  ([DotfileListFiletype.Nix, DotfileListFiletype.JSON,
    DotfileListFiletype.TOML, DotfileListFiletype.YAML].map
      (fun filetype =>
        filetype.extensions.map
          (fun ext => (cfg.dotfiles_filename ext, filetype)))).flatten

/-- `Config::dotfiles_path`: the first candidate that exists on disk,
opened; `NoneFound` when no candidate exists. -/
def Config.dotfiles_path (cfg : Config) (fs : FS) :
    Except DotfilesReadError (Path × DotfileListFiletype) :=
  match cfg.dotfiles_paths.find? (fun pf => fs.pathExists pf.1) with
  | none => Except.error DotfilesReadError.NoneFound
  | some (p, filetype) =>
    match fs.openFile p with
    | Except.error e => Except.error (DotfilesReadError.File e)
    | Except.ok _ => Except.ok (p, filetype)

/-- The buffered output of a finished subprocess
(`std::process::Output`), with the stream contents as strings. -/
structure CmdOutput where
  status : Int
  stdout : String
  stderr : String
deriving DecidableEq

/-- `nix::eval_file`: run the evaluator (its spawn outcome is the `run`
argument), map a not-found spawn error to `NoNix`, treat any non-empty
stderr as `EvalFailed` carrying the stderr text, and otherwise parse
stdout as JSON (`parse` models `serde_json::from_reader`). -/
def eval_file {α : Type} (run : Except IoError CmdOutput)
    (parse : String → Except String α) : Except NixEvalError α :=
  match run with
  | Except.error err =>
    if err.kind = IoErrorKind.notFound then
      Except.error (NixEvalError.NoNix err)
    else
      Except.error (NixEvalError.CommandFailed err)
  | Except.ok output =>
    if output.stderr.isEmpty then
      match parse output.stdout with
      | Except.error e => Except.error (NixEvalError.SerdeJSON e)
      | Except.ok v => Except.ok v
    else
      Except.error (NixEvalError.EvalFailed output.stderr)

/-- The error mapping applied to `nix::eval_file` errors inside
`Config::dotfiles`: a `SerdeJSON` evaluation error is unified with the
direct JSON parse error, everything else is wrapped in `NixEval`. -/
def mapNixError : NixEvalError → DotfilesReadError
  | NixEvalError.SerdeJSON e => DotfilesReadError.SerdeJSON e
  | e => DotfilesReadError.NixEval e

/-- `Config::dotfiles`: select the list file, dispatch on its filetype,
parse and convert.  The format parsers and the evaluator spawn are
oracles: `parseJson`, `parseYaml` and `parseToml` parse a wrapper
document from file contents, `runNix` spawns the evaluator on a path,
`parseJsonArr` parses the evaluator output as a bare array. -/
def Config.dotfiles (cfg : Config) (fs : FS)
    (parseJson parseYaml parseToml : String → Except String SerdeDotfileList)
    (runNix : Path → Except IoError CmdOutput)
    (parseJsonArr : String → Except String (List SerdeDotfile)) :
    Except DotfilesReadError (List Dotfile) :=
  match cfg.dotfiles_path fs with
  | Except.error e => Except.error e
  | Except.ok (path, filetype) =>
    match filetype with
    | DotfileListFiletype.JSON =>
      match parseJson (fs.contents path) with
      | Except.error e => Except.error (DotfilesReadError.SerdeJSON e)
      | Except.ok l => Except.ok l.dotfilesFn
    | DotfileListFiletype.YAML =>
      match parseYaml (fs.contents path) with
      | Except.error e => Except.error (DotfilesReadError.SerdeYAML e)
      | Except.ok l => Except.ok l.dotfilesFn
    | DotfileListFiletype.TOML =>
      match parseToml (fs.contents path) with
      | Except.error e => Except.error (DotfilesReadError.SerdeTOML e)
      | Except.ok l => Except.ok l.dotfilesFn
    | DotfileListFiletype.Nix =>
      match eval_file (runNix path) parseJsonArr with
      | Except.error e => Except.error (mapNixError e)
      | Except.ok v => Except.ok (SerdeDotfileList.ofVec v).dotfilesFn

/-- `dotfile::AbsDotfile`: the fully resolved repo/installed pair. -/
structure AbsDotfile where
  repo : Path
  installed : Path
deriving DecidableEq

/-- `AbsDotfile::new`: resolve `repo` against the configured repository
directory and `installed` against the home directory, failing only when
the home directory is unavailable. -/
def AbsDotfile.new (fs : FS) (platformHome : Option Path) (d : Dotfile)
    (cfg : Config) : Except IoError AbsDotfile :=
  match home_dir platformHome with
  | Except.error e => Except.error e
  | Except.ok h =>
    Except.ok ⟨make_abs fs cfg.dotfile_repo d.repo,
      make_abs fs h d.installedPath⟩

/-- A recorded filesystem/UI action of the installer. -/
inductive FsOp where
  | prompt
  | removeDir (p : Path)
  | removeFile (p : Path)
  | symlinkFile (target link : Path)
  | symlinkDir (target link : Path)
deriving DecidableEq

/-- The environment of a `link`/`link_interactive` run: the filesystem
oracle, the platform flag `cfg!(unix)`, the outcome of the interactive
confirmation, and the outcomes of the filesystem primitives. -/
structure InstallEnv where
  fs : FS
  unix : Bool
  confirm : Except IoError Bool
  removeDirResult : Except IoError Unit
  removeFileResult : Except IoError Unit
  symlinkFileResult : Except IoError Unit
  symlinkDirResult : Except IoError Unit

/-- `AbsDotfile::link`: on Unix, or when the repo-side path is a regular
file, use the file-symlink primitive; otherwise the directory-symlink
primitive.  Returns the primitive outcome and the action trace. -/
def AbsDotfile.link (d : AbsDotfile) (env : InstallEnv) :
    Except IoError Unit × List FsOp :=
  if env.unix || env.fs.isFile d.repo then
    (env.symlinkFileResult, [FsOp.symlinkFile d.repo d.installed])
  else
    (env.symlinkDirResult, [FsOp.symlinkDir d.repo d.installed])

/-- `AbsDotfile::should_overwrite`: the interactive confirmation. -/
def AbsDotfile.should_overwrite (_d : AbsDotfile) (env : InstallEnv) :
    Except IoError Bool × List FsOp :=
  (env.confirm, [FsOp.prompt])

/-- `AbsDotfile::link_interactive`: when the installed path exists, ask
for confirmation; on accept remove the existing entry (directory removal
for directories, file removal otherwise) and link; on decline fail with
`AlreadyExists`; when the installed path does not exist, link
directly. -/
def AbsDotfile.link_interactive (d : AbsDotfile) (env : InstallEnv) :
    Except IoError Unit × List FsOp :=
  if env.fs.pathExists d.installed then
    match d.should_overwrite env with
    | (Except.error e, ops) => (Except.error e, ops)
    | (Except.ok true, ops) =>
      if env.fs.isDir d.installed then
        match env.removeDirResult with
        | Except.error e => (Except.error e, ops ++ [FsOp.removeDir d.installed])
        | Except.ok _ =>
          let r := d.link env
          (r.1, ops ++ FsOp.removeDir d.installed :: r.2)
      else
        match env.removeFileResult with
        | Except.error e => (Except.error e, ops ++ [FsOp.removeFile d.installed])
        | Except.ok _ =>
          let r := d.link env
          (r.1, ops ++ FsOp.removeFile d.installed :: r.2)
    | (Except.ok false, ops) =>
      (Except.error ⟨IoErrorKind.alreadyExists, "Link source already exists"⟩, ops)
  else
    d.link env

/-- A concrete filesystem oracle on which nothing exists and every
canonicalization fails. -/
def emptyFS : FS :=
  ⟨fun _ => none, fun _ => false, fun _ => false, fun _ => false,
    fun _ => Except.ok (), fun _ => ""⟩

/-- A concrete filesystem oracle with a single entry at `c`, which is
its own canonical path. -/
def fixedFS (c : Path) : FS :=
  ⟨fun q => if q = c then some c else none,
    fun q => decide (q = c), fun _ => false, fun _ => false,
    fun _ => Except.ok (), fun _ => ""⟩

/-- The empty filesystem oracle is well-formed. -/
theorem emptyFS_wf : FS.Wf emptyFS := by
  refine ⟨?_, ?_, ?_, ?_⟩ <;> intro p <;> simp [emptyFS]

/-- The single-entry filesystem oracle is well-formed whenever its entry
is an absolute path. -/
theorem fixedFS_wf (c : Path) (h : c.absolute = true) : FS.Wf (fixedFS c) := by
  refine ⟨?_, ?_, ?_, ?_⟩
  · intro p q hpq
    by_cases hp : p = c <;> simp [fixedFS, hp] at hpq
    rw [← hpq]; exact h
  · intro p q hpq
    by_cases hp : p = c <;> simp [fixedFS, hp] at hpq
    simp [fixedFS, hpq]
  · intro p hp
    by_cases hpc : p = c <;> simp [fixedFS, hpc] at hp ⊢
  · intro p
    simp [fixedFS]

/-- Joining an absolute path onto any base returns that path
unchanged. -/
theorem Path.join_of_absolute (base p : Path) (h : p.absolute = true) :
    base.join p = p := by
  simp [Path.join, h]

/-- Joining anything onto an absolute base yields an absolute path. -/
theorem Path.join_absolute_left (base p : Path) (h : base.absolute = true) :
    (base.join p).absolute = true := by
  by_cases hp : p.absolute = true <;> simp [Path.join, hp, h]

/-- With a well-formed filesystem and an absolute base, `make_abs`
always returns an absolute path. -/
theorem make_abs_absolute (fs : FS) (base p : Path) (wf : FS.Wf fs)
    (h : base.absolute = true) : (make_abs fs base p).absolute = true := by
  cases hc : fs.canonical (base.join p) with
  | none => simpa [make_abs, hc] using Path.join_absolute_left base p h
  | some q => simpa [make_abs, hc] using wf.canonical_absolute _ q hc

/-- The result of `make_abs` is the canonicalized joined path, or the
joined path itself exactly when canonicalization fails. -/
theorem make_abs_canonical_or_join (fs : FS) (base p : Path) :
    fs.canonical (base.join p) = some (make_abs fs base p) ∨
      (fs.canonical (base.join p) = none ∧ make_abs fs base p = base.join p) := by
  cases hc : fs.canonical (base.join p) <;> simp [make_abs, hc]

/-- Claim C6: `make_abs` is total (it returns a path, never an error);
for an absolute base, when the target is absolute the result is the
canonicalization of the target or the target unchanged when
canonicalization fails, and when the target is relative the result is
the canonicalization of the syntactic join of base and target, or that
join unresolved when canonicalization fails. -/
theorem make_abs_total_spec (fs : FS) (base target : Path)
    (hbase : base.absolute = true) :
    (target.absolute = true →
      make_abs fs base target = (fs.canonical target).getD target) ∧
    (target.absolute = false →
      make_abs fs base target =
          (fs.canonical (base.join target)).getD (base.join target) ∧
        base.join target = ⟨true, base.components ++ target.components⟩) := by
  constructor
  · intro ht
    rw [make_abs, Path.join_of_absolute base target ht]
  · intro ht
    exact ⟨rfl, by simp [Path.join, ht, hbase]⟩

/-- Witness for C6 at a concrete base and target. -/
theorem make_abs_total_spec_witness :
    (Path.mk true ["usr", "lib"]).absolute = true ∧
    (((Path.mk false ["xxx"]).absolute = true →
      make_abs emptyFS ⟨true, ["usr", "lib"]⟩ ⟨false, ["xxx"]⟩ =
        (emptyFS.canonical ⟨false, ["xxx"]⟩).getD ⟨false, ["xxx"]⟩) ∧
    ((Path.mk false ["xxx"]).absolute = false →
      make_abs emptyFS ⟨true, ["usr", "lib"]⟩ ⟨false, ["xxx"]⟩ =
          (emptyFS.canonical
            (Path.join ⟨true, ["usr", "lib"]⟩ ⟨false, ["xxx"]⟩)).getD
            (Path.join ⟨true, ["usr", "lib"]⟩ ⟨false, ["xxx"]⟩) ∧
        Path.join ⟨true, ["usr", "lib"]⟩ ⟨false, ["xxx"]⟩ =
          ⟨true, ["usr", "lib"] ++ ["xxx"]⟩)) :=
  ⟨rfl, make_abs_total_spec emptyFS ⟨true, ["usr", "lib"]⟩ ⟨false, ["xxx"]⟩ rfl⟩

/-- Claim C8: for an absolute base and an absolute path that exists,
`make_abs` is idempotent and both applications return the canonical
path of the target. -/
theorem make_abs_idem (fs : FS) (base p : Path) (wf : FS.Wf fs)
    (hbase : base.absolute = true) (hp : p.absolute = true)
    (hex : fs.pathExists p = true) :
    make_abs fs base (make_abs fs base p) = make_abs fs base p ∧
    ∃ c, fs.canonical p = some c ∧ make_abs fs base p = c := by
  obtain ⟨c, hc⟩ := Option.isSome_iff_exists.mp (wf.exists_canonical p hex)
  have h1 : make_abs fs base p = c := by
    rw [make_abs, Path.join_of_absolute base p hp, hc, Option.getD_some]
  have hcabs : c.absolute = true := wf.canonical_absolute p c hc
  have h2 : make_abs fs base c = c := by
    rw [make_abs, Path.join_of_absolute base c hcabs, wf.canonical_idem p c hc,
      Option.getD_some]
  exact ⟨by rw [h1, h2], c, hc, h1⟩

/-- Witness for C8 at a concrete filesystem with one existing absolute
path. -/
theorem make_abs_idem_witness :
    FS.Wf (fixedFS ⟨true, ["home", "u", "f"]⟩) ∧
    (Path.mk true ["base"]).absolute = true ∧
    (Path.mk true ["home", "u", "f"]).absolute = true ∧
    (fixedFS ⟨true, ["home", "u", "f"]⟩).pathExists ⟨true, ["home", "u", "f"]⟩ = true ∧
    make_abs (fixedFS ⟨true, ["home", "u", "f"]⟩) ⟨true, ["base"]⟩
        (make_abs (fixedFS ⟨true, ["home", "u", "f"]⟩) ⟨true, ["base"]⟩
          ⟨true, ["home", "u", "f"]⟩) =
      make_abs (fixedFS ⟨true, ["home", "u", "f"]⟩) ⟨true, ["base"]⟩
        ⟨true, ["home", "u", "f"]⟩ :=
  ⟨fixedFS_wf _ rfl, rfl, rfl, by decide,
    (make_abs_idem (fixedFS ⟨true, ["home", "u", "f"]⟩) ⟨true, ["base"]⟩
      ⟨true, ["home", "u", "f"]⟩ (fixedFS_wf _ rfl) rfl rfl (by decide)).1⟩

/-- Claim C1 (amended): when the configured repository directory and the
home directory are absolute paths, a successful `AbsDotfile::new`
returns a pair of absolute paths, each being either the canonical
filesystem path of the joined path or, when canonicalization fails, the
syntactically-joined-but-unverified path. -/
theorem absDotfile_new_absolute (fs : FS) (home : Path) (d : Dotfile)
    (cfg : Config) (a : AbsDotfile) (wf : FS.Wf fs)
    (hrepo : cfg.dotfile_repo.absolute = true) (hhome : home.absolute = true)
    (h : AbsDotfile.new fs (some home) d cfg = Except.ok a) :
    a.repo.absolute = true ∧ a.installed.absolute = true ∧
    (fs.canonical (cfg.dotfile_repo.join d.repo) = some a.repo ∨
      (fs.canonical (cfg.dotfile_repo.join d.repo) = none ∧
        a.repo = cfg.dotfile_repo.join d.repo)) ∧
    (fs.canonical (home.join d.installedPath) = some a.installed ∨
      (fs.canonical (home.join d.installedPath) = none ∧
        a.installed = home.join d.installedPath)) := by
  have ha : a = ⟨make_abs fs cfg.dotfile_repo d.repo, make_abs fs home d.installedPath⟩ := by
    simp only [AbsDotfile.new, home_dir] at h
    exact (Except.ok.injEq _ _ ▸ h).symm
  subst ha
  exact ⟨make_abs_absolute fs _ _ wf hrepo, make_abs_absolute fs _ _ wf hhome,
    make_abs_canonical_or_join fs _ _, make_abs_canonical_or_join fs _ _⟩

/-- Witness for the amended C1 at a concrete configuration whose
repository directory is absolute. -/
theorem absDotfile_new_absolute_witness :
    FS.Wf emptyFS ∧
    (Path.mk true ["r"]).absolute = true ∧
    (Path.mk true ["home", "user"]).absolute = true ∧
    AbsDotfile.new emptyFS (some ⟨true, ["home", "user"]⟩) ⟨⟨false, ["foo"]⟩, none⟩
        ⟨⟨true, ["r"]⟩, ⟨false, ["dotfiles"]⟩⟩ =
      Except.ok ⟨⟨true, ["r", "foo"]⟩, ⟨true, ["home", "user", "foo"]⟩⟩ ∧
    (Path.mk true ["r", "foo"]).absolute = true ∧
    (Path.mk true ["home", "user", "foo"]).absolute = true :=
  ⟨emptyFS_wf, rfl, rfl, rfl,
    (absDotfile_new_absolute emptyFS ⟨true, ["home", "user"]⟩ ⟨⟨false, ["foo"]⟩, none⟩
      ⟨⟨true, ["r"]⟩, ⟨false, ["dotfiles"]⟩⟩
      ⟨⟨true, ["r", "foo"]⟩, ⟨true, ["home", "user", "foo"]⟩⟩
      emptyFS_wf rfl rfl rfl).1,
    (absDotfile_new_absolute emptyFS ⟨true, ["home", "user"]⟩ ⟨⟨false, ["foo"]⟩, none⟩
      ⟨⟨true, ["r"]⟩, ⟨false, ["dotfiles"]⟩⟩
      ⟨⟨true, ["r", "foo"]⟩, ⟨true, ["home", "user", "foo"]⟩⟩
      emptyFS_wf rfl rfl rfl).2.1⟩

/-- Counterexample to C1 as stated: with a relative configured
repository directory (as the repository's own test data uses) and a
target that does not exist, `AbsDotfile::new` succeeds but returns a
relative `repo` field.  The filesystem oracle is well-formed and the
home directory is absolute, so the failure is due only to the relative
`dotfile_repo`. -/
theorem absDotfile_new_relative_repo :
    FS.Wf emptyFS ∧
    AbsDotfile.new emptyFS (some ⟨true, ["home", "user"]⟩) ⟨⟨false, ["foo"]⟩, none⟩
        ⟨⟨false, [".dotfiles"]⟩, ⟨false, ["dotfiles"]⟩⟩ =
      Except.ok ⟨⟨false, [".dotfiles", "foo"]⟩, ⟨true, ["home", "user", "foo"]⟩⟩ ∧
    (Path.mk false [".dotfiles", "foo"]).absolute = false :=
  ⟨emptyFS_wf, rfl, rfl⟩

/-- Claim C2: when the installed path exists and the interactive
confirmation declines, `link_interactive` fails with `AlreadyExists`
and its action trace holds only the prompt — no removal and no symlink
creation, so the entry at the installed path is untouched. -/
theorem link_interactive_decline (d : AbsDotfile) (env : InstallEnv)
    (hex : env.fs.pathExists d.installed = true)
    (hconf : env.confirm = Except.ok false) :
    (d.link_interactive env).1 =
      Except.error ⟨IoErrorKind.alreadyExists, "Link source already exists"⟩ ∧
    (d.link_interactive env).2 = [FsOp.prompt] := by
  simp [AbsDotfile.link_interactive, AbsDotfile.should_overwrite, hex, hconf]

/-- Witness for C2 at a concrete environment whose installed path
exists and whose confirmation declines. -/
theorem link_interactive_decline_witness :
    (fixedFS ⟨true, ["h", "f"]⟩).pathExists ⟨true, ["h", "f"]⟩ = true ∧
    (AbsDotfile.link_interactive ⟨⟨true, ["r", "f"]⟩, ⟨true, ["h", "f"]⟩⟩
        ⟨fixedFS ⟨true, ["h", "f"]⟩, true, Except.ok false, Except.ok (),
          Except.ok (), Except.ok (), Except.ok ()⟩).1 =
      Except.error ⟨IoErrorKind.alreadyExists, "Link source already exists"⟩ ∧
    (AbsDotfile.link_interactive ⟨⟨true, ["r", "f"]⟩, ⟨true, ["h", "f"]⟩⟩
        ⟨fixedFS ⟨true, ["h", "f"]⟩, true, Except.ok false, Except.ok (),
          Except.ok (), Except.ok (), Except.ok ()⟩).2 = [FsOp.prompt] :=
  ⟨by decide,
    link_interactive_decline ⟨⟨true, ["r", "f"]⟩, ⟨true, ["h", "f"]⟩⟩
      ⟨fixedFS ⟨true, ["h", "f"]⟩, true, Except.ok false, Except.ok (),
        Except.ok (), Except.ok (), Except.ok ()⟩ (by decide) rfl⟩

/-- Claim C3: when the installed path does not exist,
`link_interactive` issues no prompt and performs no removal; its trace
is exactly one symlink creation at the installed path pointing to the
repo path, and its result is the outcome of the symlink primitive that
was used (so it succeeds whenever that primitive succeeds). -/
theorem link_interactive_absent (d : AbsDotfile) (env : InstallEnv)
    (hex : env.fs.pathExists d.installed = false) :
    ((d.link_interactive env).2 = [FsOp.symlinkFile d.repo d.installed] ∨
      (d.link_interactive env).2 = [FsOp.symlinkDir d.repo d.installed]) ∧
    FsOp.prompt ∉ (d.link_interactive env).2 ∧
    (∀ p, FsOp.removeDir p ∉ (d.link_interactive env).2) ∧
    (∀ p, FsOp.removeFile p ∉ (d.link_interactive env).2) ∧
    ((env.unix || env.fs.isFile d.repo) = true →
      (d.link_interactive env).1 = env.symlinkFileResult) ∧
    ((env.unix || env.fs.isFile d.repo) = false →
      (d.link_interactive env).1 = env.symlinkDirResult) := by
  have hli : d.link_interactive env = d.link env := by
    simp [AbsDotfile.link_interactive, hex]
  rw [hli]
  by_cases hc : (env.unix || env.fs.isFile d.repo) = true
  · simp [AbsDotfile.link, hc]
  · simp only [Bool.not_eq_true] at hc
    simp [AbsDotfile.link, hc]

/-- Witness for C3 at a concrete environment whose installed path does
not exist. -/
theorem link_interactive_absent_witness :
    emptyFS.pathExists ⟨true, ["i"]⟩ = false ∧
    (((AbsDotfile.link_interactive ⟨⟨true, ["r"]⟩, ⟨true, ["i"]⟩⟩
          ⟨emptyFS, true, Except.ok true, Except.ok (), Except.ok (),
            Except.ok (), Except.ok ()⟩).2 =
        [FsOp.symlinkFile ⟨true, ["r"]⟩ ⟨true, ["i"]⟩] ∨
      (AbsDotfile.link_interactive ⟨⟨true, ["r"]⟩, ⟨true, ["i"]⟩⟩
          ⟨emptyFS, true, Except.ok true, Except.ok (), Except.ok (),
            Except.ok (), Except.ok ()⟩).2 =
        [FsOp.symlinkDir ⟨true, ["r"]⟩ ⟨true, ["i"]⟩]) ∧
    FsOp.prompt ∉ (AbsDotfile.link_interactive ⟨⟨true, ["r"]⟩, ⟨true, ["i"]⟩⟩
        ⟨emptyFS, true, Except.ok true, Except.ok (), Except.ok (),
          Except.ok (), Except.ok ()⟩).2 ∧
    (∀ p, FsOp.removeDir p ∉ (AbsDotfile.link_interactive ⟨⟨true, ["r"]⟩, ⟨true, ["i"]⟩⟩
        ⟨emptyFS, true, Except.ok true, Except.ok (), Except.ok (),
          Except.ok (), Except.ok ()⟩).2) ∧
    (∀ p, FsOp.removeFile p ∉ (AbsDotfile.link_interactive ⟨⟨true, ["r"]⟩, ⟨true, ["i"]⟩⟩
        ⟨emptyFS, true, Except.ok true, Except.ok (), Except.ok (),
          Except.ok (), Except.ok ()⟩).2) ∧
    ((true || emptyFS.isFile ⟨true, ["r"]⟩) = true →
      (AbsDotfile.link_interactive ⟨⟨true, ["r"]⟩, ⟨true, ["i"]⟩⟩
          ⟨emptyFS, true, Except.ok true, Except.ok (), Except.ok (),
            Except.ok (), Except.ok ()⟩).1 = Except.ok ()) ∧
    ((true || emptyFS.isFile ⟨true, ["r"]⟩) = false →
      (AbsDotfile.link_interactive ⟨⟨true, ["r"]⟩, ⟨true, ["i"]⟩⟩
          ⟨emptyFS, true, Except.ok true, Except.ok (), Except.ok (),
            Except.ok (), Except.ok ()⟩).1 = Except.ok ())) :=
  ⟨rfl,
    link_interactive_absent ⟨⟨true, ["r"]⟩, ⟨true, ["i"]⟩⟩
      ⟨emptyFS, true, Except.ok true, Except.ok (), Except.ok (),
        Except.ok (), Except.ok ()⟩ rfl⟩

/-- Claim C7 (amended): the installer creates a directory symlink
exactly when the platform distinguishes file and directory symlinks
(non-Unix) and the repository-side path is not a regular file; on
platforms without the distinction (Unix) the file-symlink primitive is
always used. -/
theorem link_dir_symlink_iff (d : AbsDotfile) (env : InstallEnv) :
    ((d.link env).2 = [FsOp.symlinkDir d.repo d.installed] ↔
      (env.unix = false ∧ env.fs.isFile d.repo = false)) ∧
    (env.unix = true → (d.link env).2 = [FsOp.symlinkFile d.repo d.installed]) := by
  constructor
  · constructor
    · intro h
      by_cases hu : env.unix = true
      · simp [AbsDotfile.link, hu] at h
      · by_cases hf : env.fs.isFile d.repo = true
        · simp [AbsDotfile.link, hf] at h
        · exact ⟨by simpa using hu, by simpa using hf⟩
    · rintro ⟨hu, hf⟩
      simp [AbsDotfile.link, hu, hf]
  · intro hu
    simp [AbsDotfile.link, hu]

/-- Witness for the amended C7 at a concrete non-Unix environment with
a repo path that is not a regular file. -/
theorem link_dir_symlink_iff_witness :
    ((AbsDotfile.link ⟨⟨true, ["r"]⟩, ⟨true, ["i"]⟩⟩
          ⟨emptyFS, false, Except.ok true, Except.ok (), Except.ok (),
            Except.ok (), Except.ok ()⟩).2 =
        [FsOp.symlinkDir ⟨true, ["r"]⟩ ⟨true, ["i"]⟩] ↔
      (false = false ∧ emptyFS.isFile ⟨true, ["r"]⟩ = false)) ∧
    (false = true →
      (AbsDotfile.link ⟨⟨true, ["r"]⟩, ⟨true, ["i"]⟩⟩
          ⟨emptyFS, false, Except.ok true, Except.ok (), Except.ok (),
            Except.ok (), Except.ok ()⟩).2 =
        [FsOp.symlinkFile ⟨true, ["r"]⟩ ⟨true, ["i"]⟩]) :=
  link_dir_symlink_iff ⟨⟨true, ["r"]⟩, ⟨true, ["i"]⟩⟩
    ⟨emptyFS, false, Except.ok true, Except.ok (), Except.ok (),
      Except.ok (), Except.ok ()⟩

/-- Counterexample to C7 as stated: on a non-Unix platform with a
repository-side path that is neither a regular file nor a directory
(for example, it does not exist), the installer still uses the
directory-symlink primitive, so a directory symlink is not created
`exactly when the repo path is a directory`. -/
theorem link_dir_symlink_without_dir :
    (AbsDotfile.link ⟨⟨true, ["r"]⟩, ⟨true, ["i"]⟩⟩
        ⟨emptyFS, false, Except.ok true, Except.ok (), Except.ok (),
          Except.ok (), Except.ok ()⟩).2 =
      [FsOp.symlinkDir ⟨true, ["r"]⟩ ⟨true, ["i"]⟩] ∧
    emptyFS.isDir ⟨true, ["r"]⟩ = false ∧
    emptyFS.isFile ⟨true, ["r"]⟩ = false ∧
    emptyFS.pathExists ⟨true, ["r"]⟩ = false ∧
    FS.Wf emptyFS :=
  ⟨rfl, rfl, rfl, rfl, emptyFS_wf⟩

/-- Claim C9: converting a parsed `SerdeConfig` substitutes
`<home>/.dotfiles` when `dotfile_repo` is absent and `dotfiles` when
`dotfiles_basename` is absent; it fails — and then only with `NoHome` —
exactly when `dotfile_repo` is absent and the home directory cannot be
determined; and converting the document that sets no keys is exactly
`Config::try_default`. -/
theorem config_tryFromSerde_defaults (platformHome : Option Path)
    (sc : SerdeConfig) :
    (Config.tryFromSerde platformHome sc = Except.error ConfigReadError.NoHome ↔
      (sc.dotfile_repo = none ∧ platformHome = none)) ∧
    (∀ e, Config.tryFromSerde platformHome sc = Except.error e →
      e = ConfigReadError.NoHome) ∧
    (∀ h, sc.dotfile_repo = none → platformHome = some h →
      Config.tryFromSerde platformHome sc =
        Except.ok ⟨h.join DEFAULT_DOTFILE_REPO_NAME,
          sc.dotfiles_basename.getD ⟨false, ["dotfiles"]⟩⟩) ∧
    (∀ r, sc.dotfile_repo = some r →
      Config.tryFromSerde platformHome sc =
        Except.ok ⟨r, sc.dotfiles_basename.getD ⟨false, ["dotfiles"]⟩⟩) ∧
    Config.tryFromSerde platformHome ⟨none, none⟩ =
      Config.try_default platformHome := by
  obtain ⟨dr, db⟩ := sc
  refine ⟨?_, ?_, ?_, ?_, rfl⟩ <;>
    cases dr <;> cases platformHome <;>
      simp [Config.tryFromSerde]

/-- Witness for C9 at a concrete home directory and the empty config
document. -/
theorem config_tryFromSerde_defaults_witness :
    (Config.tryFromSerde (some ⟨true, ["home", "u"]⟩) ⟨none, none⟩ =
        Except.error ConfigReadError.NoHome ↔
      ((SerdeConfig.mk none none).dotfile_repo = none ∧
        (some (Path.mk true ["home", "u"]) : Option Path) = none)) ∧
    (∀ e, Config.tryFromSerde (some ⟨true, ["home", "u"]⟩) ⟨none, none⟩ =
        Except.error e → e = ConfigReadError.NoHome) ∧
    (∀ h, (SerdeConfig.mk none none).dotfile_repo = none →
      (some (Path.mk true ["home", "u"]) : Option Path) = some h →
      Config.tryFromSerde (some ⟨true, ["home", "u"]⟩) ⟨none, none⟩ =
        Except.ok ⟨h.join DEFAULT_DOTFILE_REPO_NAME,
          (SerdeConfig.mk none none).dotfiles_basename.getD ⟨false, ["dotfiles"]⟩⟩) ∧
    (∀ r, (SerdeConfig.mk none none).dotfile_repo = some r →
      Config.tryFromSerde (some ⟨true, ["home", "u"]⟩) ⟨none, none⟩ =
        Except.ok ⟨r,
          (SerdeConfig.mk none none).dotfiles_basename.getD ⟨false, ["dotfiles"]⟩⟩) ∧
    Config.tryFromSerde (some ⟨true, ["home", "u"]⟩) ⟨none, none⟩ =
      Config.try_default (some ⟨true, ["home", "u"]⟩) :=
  config_tryFromSerde_defaults (some ⟨true, ["home", "u"]⟩) ⟨none, none⟩

/-- Claim C10: converting a parsed dotfile list preserves its length and
converts the entries pointwise in order (a bare path `p` becoming the
dotfile with repo `p` and no installed override); the `$schema` field
has no effect on the result. -/
theorem serdeDotfileList_dotfiles_map (l : SerdeDotfileList) :
    l.dotfilesFn.length = l.dotfiles.length ∧
    (∀ i : Nat, l.dotfilesFn[i]? = (l.dotfiles[i]?).map SerdeDotfile.toDotfile) ∧
    (∀ p, SerdeDotfile.toDotfile (SerdeDotfile.path p) = ⟨p, none⟩) ∧
    (∀ s v, SerdeDotfileList.dotfilesFn ⟨s, v⟩ = SerdeDotfileList.dotfilesFn ⟨none, v⟩) := by
  refine ⟨by simp [SerdeDotfileList.dotfilesFn], ?_, fun p => rfl, fun s v => rfl⟩
  intro i
  simp [SerdeDotfileList.dotfilesFn, List.getElem?_map]

/-- A successful `List.find?` splits the list around the first match:
everything before it fails the predicate. -/
theorem find?_split {α : Type} (q : α → Bool) :
    ∀ (l : List α) (b : α), l.find? q = some b →
      q b = true ∧ ∃ pre post, l = pre ++ b :: post ∧ ∀ x ∈ pre, q x = false := by
  intro l
  induction l with
  | nil => intro b h; simp [List.find?] at h
  | cons a t ih =>
    intro b h
    by_cases ha : q a = true
    · rw [List.find?_cons_of_pos _ ha] at h
      cases h
      exact ⟨ha, [], t, rfl, by simp⟩
    · rw [List.find?_cons_of_neg _ (by simpa using ha)] at h
      obtain ⟨hb, pre, post, hsplit, hpre⟩ := ih b h
      refine ⟨hb, a :: pre, post, by rw [hsplit]; rfl, ?_⟩
      intro x hx
      rcases List.mem_cons.mp hx with hxa | hx
      · rw [hxa]; simpa using ha
      · exact hpre x hx

/-- Setting the extension of an extension-less component appends a dot
and the extension. -/
theorem setExtComponent_eq_append (name ext : String)
    (hname : extensionLess name = true) (hext : ext.data.isEmpty = false) :
    setExtComponent name ext = name ++ "." ++ ext := by
  have hstem : fileStemOf name = name.data := by
    unfold fileStemOf
    cases hd : name.data with
    | nil => rfl
    | cons c rest =>
      unfold extensionLess at hname
      rw [hd] at hname
      simp only [Option.isNone_iff_eq_none] at hname
      simp [hname]
  unfold setExtComponent
  rw [hstem, hext]
  apply congrArg String.mk
  simp

/-- Setting the extension of a path whose last component is
extension-less appends a dot and the extension to that component. -/
theorem set_extension_append (a : Bool) (bs : List String) (stem ext : String)
    (hstem : extensionLess stem = true) (hext : ext.data.isEmpty = false) :
    Path.set_extension ⟨a, bs ++ [stem]⟩ ext = ⟨a, bs ++ [stem ++ "." ++ ext]⟩ := by
  unfold Path.set_extension
  simp [List.getLast?_concat, List.dropLast_concat,
    setExtComponent_eq_append stem ext hstem hext]

/-- Claim C4: for a relative, extension-less list basename, the
candidate list files are exactly `<dotfile_repo>/<basename>.<ext>` for
`ext` in the order `nix, json, toml, yaml, yml`; the loader returns
`NoneFound` exactly when no candidate exists; a successful selection is
the first existing candidate (everything before it does not exist); and
the first existing candidate is returned whenever it can be opened. -/
theorem dotfiles_path_priority (fs : FS) (cfg : Config) (bs : List String)
    (stem : String) (hcomp : cfg.dotfiles_basename.components = bs ++ [stem])
    (habs : cfg.dotfiles_basename.absolute = false)
    (hstem : extensionLess stem = true) :
    cfg.dotfiles_paths =
      [(⟨cfg.dotfile_repo.absolute,
          cfg.dotfile_repo.components ++ (bs ++ [stem ++ "." ++ "nix"])⟩,
        DotfileListFiletype.Nix),
       (⟨cfg.dotfile_repo.absolute,
          cfg.dotfile_repo.components ++ (bs ++ [stem ++ "." ++ "json"])⟩,
        DotfileListFiletype.JSON),
       (⟨cfg.dotfile_repo.absolute,
          cfg.dotfile_repo.components ++ (bs ++ [stem ++ "." ++ "toml"])⟩,
        DotfileListFiletype.TOML),
       (⟨cfg.dotfile_repo.absolute,
          cfg.dotfile_repo.components ++ (bs ++ [stem ++ "." ++ "yaml"])⟩,
        DotfileListFiletype.YAML),
       (⟨cfg.dotfile_repo.absolute,
          cfg.dotfile_repo.components ++ (bs ++ [stem ++ "." ++ "yml"])⟩,
        DotfileListFiletype.YAML)] ∧
    (cfg.dotfiles_path fs = Except.error DotfilesReadError.NoneFound ↔
      ∀ pf ∈ cfg.dotfiles_paths, fs.pathExists pf.1 = false) ∧
    (∀ p ft, cfg.dotfiles_path fs = Except.ok (p, ft) →
      fs.pathExists p = true ∧
      ∃ pre post, cfg.dotfiles_paths = pre ++ (p, ft) :: post ∧
        ∀ x ∈ pre, fs.pathExists x.1 = false) ∧
    (∀ p ft,
      cfg.dotfiles_paths.find? (fun pf => fs.pathExists pf.1) = some (p, ft) →
      fs.openFile p = Except.ok () → cfg.dotfiles_path fs = Except.ok (p, ft)) := by
  have hbn : cfg.dotfiles_basename = ⟨false, bs ++ [stem]⟩ := by
    cases hb : cfg.dotfiles_basename with
    | mk a c =>
      rw [hb] at hcomp habs
      simp only at hcomp habs
      rw [hcomp, habs]
  refine ⟨?_, ?_, ?_, ?_⟩
  · simp only [Config.dotfiles_paths, Config.dotfiles_filename,
      Config.dotfiles_basename_extension, DotfileListFiletype.extensions,
      hbn, List.map, List.flatten]
    rw [set_extension_append false bs stem "nix" hstem rfl,
      set_extension_append false bs stem "json" hstem rfl,
      set_extension_append false bs stem "toml" hstem rfl,
      set_extension_append false bs stem "yaml" hstem rfl,
      set_extension_append false bs stem "yml" hstem rfl]
    simp [Path.join]
  · unfold Config.dotfiles_path
    cases hf : cfg.dotfiles_paths.find? (fun pf => fs.pathExists pf.1) with
    | none =>
      constructor
      · intro _ pf hpf
        simpa using List.find?_eq_none.mp hf pf hpf
      · intro _; rfl
    | some pf =>
      obtain ⟨p, ft⟩ := pf
      have hp : fs.pathExists p = true := by simpa using List.find?_some hf
      constructor
      · intro h
        cases ho : fs.openFile p <;> simp only [ho] at h <;> simp at h
      · intro hall
        have := hall (p, ft) (List.mem_of_find?_eq_some hf)
        simp [hp] at this
  · intro p ft h
    unfold Config.dotfiles_path at h
    cases hf : cfg.dotfiles_paths.find? (fun pf => fs.pathExists pf.1) with
    | none => simp [hf] at h
    | some pf =>
      obtain ⟨q, qt⟩ := pf
      simp only [hf] at h
      cases ho : fs.openFile q <;> simp only [ho] at h <;> simp at h
      obtain ⟨hq, hqt⟩ := h
      rw [hq, hqt] at hf
      obtain ⟨hfq, pre, post, hsplit, hpre⟩ :=
        find?_split (fun pf => fs.pathExists pf.1) cfg.dotfiles_paths (p, ft) hf
      exact ⟨by simpa using hfq, pre, post, hsplit, fun x hx => by simpa using hpre x hx⟩
  · intro p ft hf ho
    unfold Config.dotfiles_path
    simp only [hf, ho]

/-- Witness for C4 at a concrete config whose repository holds only the
TOML candidate. -/
theorem dotfiles_path_priority_witness :
    (Config.mk ⟨true, ["r"]⟩ ⟨false, ["dotfiles"]⟩).dotfiles_basename.components =
      [] ++ ["dotfiles"] ∧
    (Config.mk ⟨true, ["r"]⟩ ⟨false, ["dotfiles"]⟩).dotfiles_basename.absolute = false ∧
    extensionLess "dotfiles" = true ∧
    ((Config.mk ⟨true, ["r"]⟩ ⟨false, ["dotfiles"]⟩).dotfiles_paths =
      [(⟨true, ["r", "dotfiles.nix"]⟩, DotfileListFiletype.Nix),
       (⟨true, ["r", "dotfiles.json"]⟩, DotfileListFiletype.JSON),
       (⟨true, ["r", "dotfiles.toml"]⟩, DotfileListFiletype.TOML),
       (⟨true, ["r", "dotfiles.yaml"]⟩, DotfileListFiletype.YAML),
       (⟨true, ["r", "dotfiles.yml"]⟩, DotfileListFiletype.YAML)] ∧
    ((Config.mk ⟨true, ["r"]⟩ ⟨false, ["dotfiles"]⟩).dotfiles_path
          (fixedFS ⟨true, ["r", "dotfiles.toml"]⟩) =
        Except.error DotfilesReadError.NoneFound ↔
      ∀ pf ∈ (Config.mk ⟨true, ["r"]⟩ ⟨false, ["dotfiles"]⟩).dotfiles_paths,
        (fixedFS ⟨true, ["r", "dotfiles.toml"]⟩).pathExists pf.1 = false) ∧
    (∀ p ft,
      (Config.mk ⟨true, ["r"]⟩ ⟨false, ["dotfiles"]⟩).dotfiles_path
          (fixedFS ⟨true, ["r", "dotfiles.toml"]⟩) = Except.ok (p, ft) →
      (fixedFS ⟨true, ["r", "dotfiles.toml"]⟩).pathExists p = true ∧
      ∃ pre post,
        (Config.mk ⟨true, ["r"]⟩ ⟨false, ["dotfiles"]⟩).dotfiles_paths =
          pre ++ (p, ft) :: post ∧
        ∀ x ∈ pre, (fixedFS ⟨true, ["r", "dotfiles.toml"]⟩).pathExists x.1 = false) ∧
    (∀ p ft,
      (Config.mk ⟨true, ["r"]⟩ ⟨false, ["dotfiles"]⟩).dotfiles_paths.find?
          (fun pf => (fixedFS ⟨true, ["r", "dotfiles.toml"]⟩).pathExists pf.1) =
        some (p, ft) →
      (fixedFS ⟨true, ["r", "dotfiles.toml"]⟩).openFile p = Except.ok () →
      (Config.mk ⟨true, ["r"]⟩ ⟨false, ["dotfiles"]⟩).dotfiles_path
          (fixedFS ⟨true, ["r", "dotfiles.toml"]⟩) = Except.ok (p, ft))) :=
  ⟨rfl, rfl, rfl,
    dotfiles_path_priority (fixedFS ⟨true, ["r", "dotfiles.toml"]⟩)
      ⟨⟨true, ["r"]⟩, ⟨false, ["dotfiles"]⟩⟩ [] "dotfiles" rfl rfl rfl⟩

/-- Claim C5: `nix::eval_file` maps a not-found spawn failure to the
distinct `NoNix` error; when the subprocess ran, it fails with
`EvalFailed` carrying the stderr text exactly when stderr is non-empty,
independently of the exit status; with empty stderr, stdout is parsed,
a parse failure becoming `SerdeJSON` — the error kind that
`Config::dotfiles` surfaces identically to a direct-JSON parse failure
(both produce `DotfilesReadError::SerdeJSON`). -/
theorem eval_file_spec {α : Type} (run : Except IoError CmdOutput)
    (parse : String → Except String α) :
    (∀ err, run = Except.error err → err.kind = IoErrorKind.notFound →
      eval_file run parse = Except.error (NixEvalError.NoNix err)) ∧
    (∀ out, run = Except.ok out →
      (¬out.stderr.isEmpty →
        eval_file run parse = Except.error (NixEvalError.EvalFailed out.stderr)) ∧
      (out.stderr.isEmpty →
        ∀ s, eval_file run parse ≠ Except.error (NixEvalError.EvalFailed s)) ∧
      (out.stderr.isEmpty → ∀ e, parse out.stdout = Except.error e →
        eval_file run parse = Except.error (NixEvalError.SerdeJSON e)) ∧
      (out.stderr.isEmpty → ∀ v, parse out.stdout = Except.ok v →
        eval_file run parse = Except.ok v) ∧
      (∀ s, eval_file (Except.ok ⟨s, out.stdout, out.stderr⟩) parse =
        eval_file run parse)) ∧
    (∀ e, mapNixError (NixEvalError.SerdeJSON e) = DotfilesReadError.SerdeJSON e) ∧
    (∀ (cfg : Config) (fs : FS) pj py pt rn pa (p : Path) (e : String),
      cfg.dotfiles_path fs = Except.ok (p, DotfileListFiletype.Nix) →
      eval_file (rn p) pa = Except.error (NixEvalError.SerdeJSON e) →
      Config.dotfiles cfg fs pj py pt rn pa =
        Except.error (DotfilesReadError.SerdeJSON e)) ∧
    (∀ (cfg : Config) (fs : FS) pj py pt rn pa (p : Path) (e : String),
      cfg.dotfiles_path fs = Except.ok (p, DotfileListFiletype.JSON) →
      pj (fs.contents p) = Except.error e →
      Config.dotfiles cfg fs pj py pt rn pa =
        Except.error (DotfilesReadError.SerdeJSON e)) := by
  refine ⟨?_, ?_, fun e => rfl, ?_, ?_⟩
  · intro err hrun hkind
    simp [eval_file, hrun, hkind]
  · intro out hrun
    refine ⟨?_, ?_, ?_, ?_, ?_⟩
    · intro hne
      simp only [Bool.not_eq_true] at hne
      simp [eval_file, hrun, hne]
    · intro he s
      cases hp : parse out.stdout <;> simp [eval_file, hrun, he, hp]
    · intro he e hp
      simp [eval_file, hrun, he, hp]
    · intro he v hp
      simp [eval_file, hrun, he, hp]
    · intro s
      rw [hrun]
      unfold eval_file
      rfl
  · intro cfg fs pj py pt rn pa p e hsel heval
    unfold Config.dotfiles
    simp only [hsel, heval]
    rfl
  · intro cfg fs pj py pt rn pa p e hsel hparse
    unfold Config.dotfiles
    simp only [hsel, hparse]

/-- Witness for C5 at concrete spawn outcomes: a not-found spawn error,
a run with non-empty stderr, and a run with empty stderr whose stdout
fails to parse. -/
theorem eval_file_spec_witness :
    eval_file (Except.error ⟨IoErrorKind.notFound, "msg"⟩)
        (fun _ => Except.ok ([] : List SerdeDotfile)) =
      Except.error (NixEvalError.NoNix ⟨IoErrorKind.notFound, "msg"⟩) ∧
    eval_file (Except.ok ⟨1, "out", "boom"⟩)
        (fun _ => Except.ok ([] : List SerdeDotfile)) =
      Except.error (NixEvalError.EvalFailed "boom") ∧
    eval_file (Except.ok ⟨0, "bad", ""⟩)
        ((fun _ => Except.error "parse error") :
          String → Except String (List SerdeDotfile)) =
      Except.error (NixEvalError.SerdeJSON "parse error") ∧
    mapNixError (NixEvalError.SerdeJSON "parse error") =
      DotfilesReadError.SerdeJSON "parse error" :=
  ⟨(eval_file_spec (Except.error ⟨IoErrorKind.notFound, "msg"⟩)
      (fun _ => Except.ok ([] : List SerdeDotfile))).1
      ⟨IoErrorKind.notFound, "msg"⟩ rfl rfl,
    ((eval_file_spec (Except.ok ⟨1, "out", "boom"⟩)
      (fun _ => Except.ok ([] : List SerdeDotfile))).2.1
      ⟨1, "out", "boom"⟩ rfl).1 (by decide),
    ((eval_file_spec (Except.ok ⟨0, "bad", ""⟩)
      ((fun _ => Except.error "parse error") :
        String → Except String (List SerdeDotfile))).2.1
      ⟨0, "bad", ""⟩ rfl).2.2.1 rfl "parse error" rfl,
    (eval_file_spec (Except.ok ⟨0, "bad", ""⟩)
      ((fun _ => Except.error "parse error") :
        String → Except String (List SerdeDotfile))).2.2.1 "parse error"⟩

end DFM
